import Mathlib

/-!
Shallow embedding of `src/libindy/src/commands/pool.rs`: the pool command
dispatcher (`PoolCommandExecutor`). The dispatcher routes `PoolCommand`
values to an external pool service and delivers outcomes through
caller-supplied callbacks; `Close` completion is deferred through a
pending-callback table keyed by correlation id, resolved by `CloseAck`.

Callbacks (boxed closures in the source) are modelled by opaque ids
(`CbId`); an execution step returns the list of callback invocations it
performed, each carrying the exact result value passed to the closure.
The external pool service, which the source only calls into, is modelled
as an oracle environment giving the result of each service call; the
`RefCell::try_borrow_mut` outcome on the pending table is likewise an
environment input (`borrowOk`).
-/

set_option autoImplicit false

namespace PoolCmd

/-- Opaque pool handle (`PoolHandle`, an `i32` in the API types). -/
abbrev PoolHandle := Int

/-- Opaque correlation id (`CommandHandle`, an `i32` in the API types). -/
abbrev CommandHandle := Int

/-- Opaque identifier standing for one boxed callback closure. -/
abbrev CbId := Nat

/-- Modelled from the spec: the error taxonomy of `indy_api_types`
(not under `src/`): service errors are abstract codes; `InvalidState`
is the internal-state kind used for serialization failures;
`PoolIncompatibleProtocolVersion` is the protocol-version kind;
`LockContention` stands for the error a failed
`RefCell::try_borrow_mut` converts into. -/
inductive IndyErrorKind where
  | InvalidState : IndyErrorKind
  | PoolIncompatibleProtocolVersion : IndyErrorKind
  | LockContention : IndyErrorKind
  | Service : Nat → IndyErrorKind
  deriving DecidableEq

/-- An error value: a kind plus a message string. -/
structure IndyError where
  kind : IndyErrorKind
  message : String
  deriving DecidableEq

/-- `IndyResult<T>` from the source. -/
abbrev IndyResult (α : Type) := Except IndyError α

instance instDecEqExcept {ε α : Type} [DecidableEq ε] [DecidableEq α] :
    DecidableEq (Except ε α) := fun a b =>
  match a, b with
  | Except.ok x, Except.ok y =>
      if h : x = y then isTrue (by rw [h]) else isFalse (by simp [h])
  | Except.error x, Except.error y =>
      if h : x = y then isTrue (by rw [h]) else isFalse (by simp [h])
  | Except.ok _, Except.error _ => isFalse (by simp)
  | Except.error _, Except.ok _ => isFalse (by simp)

/-- Pool creation config; the dispatcher never inspects it, so it is kept
opaque as its raw content. -/
structure PoolConfig where
  raw : String
  deriving DecidableEq

/-- Pool open config; opaque to the dispatcher. -/
structure PoolOpenConfig where
  raw : String
  deriving DecidableEq

/-- Modelled from the spec: one entry of the pool-service listing
(the catalog entries live in the external pool service, outside this
core). `json` is its serde_json serialization when the entry serializes,
`none` when serialization of this entry fails. -/
structure PoolInfo where
  json : Option String
  deriving DecidableEq

/-- Modelled from the spec: `serde_json::to_string` on the listing
collection — a JSON array of the serialized entries, failing iff some
entry fails to serialize. On the empty collection it yields `"[]"`. -/
def serde_json_to_string (pools : List PoolInfo) : Option String :=
  (pools.mapM (fun (p : PoolInfo) => p.json)).map
    (fun parts => "[" ++ String.intercalate "," parts ++ "]")

/-- Modelled from the spec: the external pool service collaborator
contract (spec section 6), as one oracle giving the result of each
service call the dispatcher may make. -/
structure PoolService where
  createRes : String → Option PoolConfig → IndyResult Unit
  deleteRes : String → IndyResult Unit
  openRes : String → Option PoolOpenConfig → IndyResult PoolHandle
  listRes : IndyResult (List PoolInfo)
  closeRes : PoolHandle → IndyResult CommandHandle
  refreshRes : PoolHandle → IndyResult Unit

/-- Environment of one `execute` step: the pool service oracle plus the
outcome of `try_borrow_mut` on the pending-callback table. -/
structure Env where
  service : PoolService
  borrowOk : Bool

/-- Modelled from the spec: the typed error a failed table borrow is
converted into (`err.into()` in the source; the conversion itself lives
in `indy_api_types`, not under `src/`). -/
def borrowMutError : IndyError :=
  { kind := IndyErrorKind.LockContention, message := "already borrowed" }

/-- `PoolCommand` from the source: the closed set of operation variants.
Callbacks are `CbId`s; `CloseAck` carries no callback. -/
inductive PoolCommand where
  | Create : String → Option PoolConfig → CbId → PoolCommand
  | Delete : String → CbId → PoolCommand
  | Open : String → Option PoolOpenConfig → CbId → PoolCommand
  | List : CbId → PoolCommand
  | Close : PoolHandle → CbId → PoolCommand
  | CloseAck : CommandHandle → IndyResult Unit → PoolCommand
  | Refresh : PoolHandle → CbId → PoolCommand
  | SetProtocolVersion : Nat → CbId → PoolCommand
  deriving DecidableEq

/-- The pending-callback table `close_callbacks : HashMap<CommandHandle,
Box<dyn Fn..>>`, as an association list with unique keys maintained by
`mapInsert` / `mapErase`. -/
abbrev CbTable := List (CommandHandle × CbId)

/-- `HashMap` lookup on the association list. -/
def mapGet (k : CommandHandle) : CbTable → Option CbId
  | [] => none
  | (k2, v) :: rest => if k2 = k then some v else mapGet k rest

/-- Drop every entry with key `k` (at most one under the unique-key
invariant); used to model `HashMap::remove` and key replacement. -/
def mapErase (k : CommandHandle) : CbTable → CbTable
  | [] => []
  | (k2, v) :: rest =>
      if k2 = k then mapErase k rest else (k2, v) :: mapErase k rest

/-- `HashMap::insert`: replaces any existing entry for the key. -/
def mapInsert (k : CommandHandle) (v : CbId) (m : CbTable) : CbTable :=
  (k, v) :: mapErase k m

/-- Mutable state of the embedding: the executor field `close_callbacks`,
plus the process-wide protocol version. The latter is modelled from the
spec: `ProtocolVersion::set` lives in `domain/ledger/request`, not under
`src/`; the spec describes it as process-wide state written only by
`SetProtocolVersion`. -/
structure ExecState where
  close_callbacks : CbTable
  protocol_version : Nat
  deriving DecidableEq

/-- The result value a callback invocation carries; one constructor per
callback result type appearing in `PoolCommand`. -/
inductive CbResult where
  | unit : IndyResult Unit → CbResult
  | handle : IndyResult PoolHandle → CbResult
  | str : IndyResult String → CbResult
  deriving DecidableEq

/-- One observable callback invocation: which closure fired, with what
result value. -/
abbrev Event := CbId × CbResult

/-- `PoolCommandExecutor::create`: delegate to the service, `?`, `Ok(())`. -/
def create (env : Env) (name : String) (config : Option PoolConfig) :
    IndyResult Unit :=
  (env.service.createRes name config).bind (fun _ => Except.ok ())

/-- `PoolCommandExecutor::delete`: delegate to the service, `?`, `Ok(())`. -/
def delete (env : Env) (name : String) : IndyResult Unit :=
  (env.service.deleteRes name).bind (fun _ => Except.ok ())

/-- `PoolCommandExecutor::list`: obtain the listing from the service and
serialize it; a serde failure becomes an `InvalidState` error via
`to_indy`. -/
def list (env : Env) : IndyResult String :=
  env.service.listRes.bind (fun pools =>
    match serde_json_to_string pools with
    | some s => Except.ok s
    | none =>
        Except.error
          { kind := IndyErrorKind.InvalidState,
            message := "Cannot serialize pools list" })

/-- `PoolCommandExecutor::close`: ask the service to begin teardown; on a
correlation id, borrow the table and register the callback (replacing any
entry under the same id); on any error (service or borrow), invoke the
callback with it and leave the table alone. -/
def close (env : Env) (st : ExecState) (pool_handle : PoolHandle)
    (cb : CbId) : ExecState × List Event :=
  match (env.service.closeRes pool_handle).bind (fun cmd_id =>
      if env.borrowOk then Except.ok cmd_id
      else Except.error borrowMutError) with
  | Except.error err => (st, [(cb, CbResult.unit (Except.error err))])
  | Except.ok cmd_id =>
      ({ st with close_callbacks := mapInsert cmd_id cb st.close_callbacks },
       [])

/-- `PoolCommandExecutor::set_protocol_version`: only versions 1 and 2
are accepted; otherwise fail with `PoolIncompatibleProtocolVersion`
before touching the shared state. -/
def set_protocol_version (st : ExecState) (version : Nat) :
    ExecState × IndyResult Unit :=
  if version ≠ 1 ∧ version ≠ 2 then
    (st,
     Except.error
       { kind := IndyErrorKind.PoolIncompatibleProtocolVersion,
         message := "Unsupported Protocol version: " ++ toString version })
  else
    ({ st with protocol_version := version }, Except.ok ())

/-- `PoolCommandExecutor::execute`: dispatch one command, returning the
updated state and the callback invocations performed (in order). The
`CloseAck` arm borrows the table, removes the entry for the id and fires
the stored callback with the carried result (`map_err(IndyError::from)`
is the identity on an already-typed `IndyResult`); a missing entry or a
failed borrow is only logged. -/
def execute (env : Env) (st : ExecState) (cmd : PoolCommand) :
    ExecState × List Event :=
  match cmd with
  | PoolCommand.Create name config cb =>
      (st, [(cb, CbResult.unit (create env name config))])
  | PoolCommand.Delete name cb =>
      (st, [(cb, CbResult.unit (delete env name))])
  | PoolCommand.Open name config cb =>
      (st, [(cb, CbResult.handle (env.service.openRes name config))])
  | PoolCommand.List cb =>
      (st, [(cb, CbResult.str (list env))])
  | PoolCommand.Close handle cb => close env st handle cb
  | PoolCommand.CloseAck handle result =>
      if env.borrowOk then
        match mapGet handle st.close_callbacks with
        | some cb =>
            ({ st with close_callbacks :=
                 mapErase handle st.close_callbacks },
             [(cb, CbResult.unit result)])
        | none => (st, [])
      else (st, [])
  | PoolCommand.Refresh handle cb =>
      (st, [(cb, CbResult.unit (env.service.refreshRes handle))])
  | PoolCommand.SetProtocolVersion version cb =>
      match set_protocol_version st version with
      | (st2, r) => (st2, [(cb, CbResult.unit r)])

/-- Run a sequence of commands, each under its own step environment,
concatenating the callback invocations in execution order. -/
def run (st : ExecState) : List (Env × PoolCommand) → ExecState × List Event
  | [] => (st, [])
  | step :: rest =>
      ((run (execute step.1 st step.2).1 rest).1,
       (execute step.1 st step.2).2 ++ (run (execute step.1 st step.2).1 rest).2)

/-- The invocations of callback `cb` among a list of events. -/
def cbEvents (cb : CbId) (evs : List Event) : List Event :=
  evs.filter (fun e => e.1 == cb)

/-- Whether a command carries `cb` as its completion callback. -/
def cmdMentions (cb : CbId) : PoolCommand → Bool
  | PoolCommand.Create _ _ c => c == cb
  | PoolCommand.Delete _ c => c == cb
  | PoolCommand.Open _ _ c => c == cb
  | PoolCommand.List c => c == cb
  | PoolCommand.Close _ c => c == cb
  | PoolCommand.CloseAck _ _ => false
  | PoolCommand.Refresh _ c => c == cb
  | PoolCommand.SetProtocolVersion _ c => c == cb

/-- Whether executing `cmd` under `env` writes or removes the pending
entry at correlation id `id`: a `Close` whose service call yields `id`
and whose table borrow succeeds, or a `CloseAck` for `id` whose table
borrow succeeds. -/
def touchesId (env : Env) (cmd : PoolCommand) (id : CommandHandle) : Bool :=
  match cmd with
  | PoolCommand.Close h _ =>
      env.borrowOk &&
        (match env.service.closeRes h with
         | Except.ok i => i == id
         | Except.error _ => false)
  | PoolCommand.CloseAck h _ => env.borrowOk && (h == id)
  | _ => false

/-- Callback `cb` is stored nowhere in the table. -/
def cbAbsent (cb : CbId) (m : CbTable) : Prop := ∀ p ∈ m, p.2 ≠ cb

/-- Callback `cb` is stored in the table exactly under key `id`. -/
def cbOnlyAt (id : CommandHandle) (cb : CbId) (m : CbTable) : Prop :=
  mapGet id m = some cb ∧ ∀ p ∈ m, p.2 = cb → p.1 = id

lemma mapGet_mem {k : CommandHandle} {v : CbId} :
    ∀ {m : CbTable}, mapGet k m = some v → (k, v) ∈ m := by
  intro m
  induction m with
  | nil => intro h; simp [mapGet] at h
  | cons p rest ih =>
      intro h
      by_cases hk : p.1 = k
      · rw [show p = (p.1, p.2) from rfl] at h ⊢
        simp [mapGet, hk] at h
        simp [hk, h]
      · rw [show p = (p.1, p.2) from rfl] at h
        simp [mapGet, hk] at h
        exact List.mem_cons_of_mem _ (ih h)

lemma mem_mapErase {k : CommandHandle} {p : CommandHandle × CbId} :
    ∀ {m : CbTable}, p ∈ mapErase k m → p ∈ m ∧ p.1 ≠ k := by
  intro m
  induction m with
  | nil => intro h; simp [mapErase] at h
  | cons q rest ih =>
      intro h
      rw [show q = (q.1, q.2) from rfl] at h
      by_cases hk : q.1 = k
      · simp [mapErase, hk] at h
        exact ⟨List.mem_cons_of_mem _ (ih h).1, (ih h).2⟩
      · simp [mapErase, hk] at h
        cases h with
        | inl h0 =>
            refine ⟨?_, ?_⟩
            · simp [h0]
            · rw [h0]; exact hk
        | inr h0 => exact ⟨List.mem_cons_of_mem _ (ih h0).1, (ih h0).2⟩

lemma mapGet_mapErase_ne {k k2 : CommandHandle} (hk : k ≠ k2) :
    ∀ (m : CbTable), mapGet k (mapErase k2 m) = mapGet k m := by
  intro m
  induction m with
  | nil => simp [mapErase]
  | cons q rest ih =>
      rw [show q = (q.1, q.2) from rfl]
      by_cases h2 : q.1 = k2
      · have hq : q.1 ≠ k := by rw [h2]; exact fun hEq => hk hEq.symm
        simp [mapErase, h2, mapGet, hq, ih, Ne.symm hk]
      · by_cases h1 : q.1 = k
        · simp [mapErase, h2, mapGet, h1, hk]
        · simp [mapErase, h2, mapGet, h1, ih]

lemma mapGet_mapInsert_self (k : CommandHandle) (v : CbId) (m : CbTable) :
    mapGet k (mapInsert k v m) = some v := by
  simp [mapInsert, mapGet]

lemma step_absent (cb : CbId) (env : Env) (st : ExecState)
    (cmd : PoolCommand) (hm : cmdMentions cb cmd = false)
    (ha : cbAbsent cb st.close_callbacks) :
    cbAbsent cb (execute env st cmd).1.close_callbacks ∧
    cbEvents cb (execute env st cmd).2 = [] := by
  cases cmd with
  | Create name config c =>
      simp [cmdMentions] at hm
      exact ⟨ha, by simp [execute, cbEvents, hm]⟩
  | Delete name c =>
      simp [cmdMentions] at hm
      exact ⟨ha, by simp [execute, cbEvents, hm]⟩
  | Open name config c =>
      simp [cmdMentions] at hm
      exact ⟨ha, by simp [execute, cbEvents, hm]⟩
  | List c =>
      simp [cmdMentions] at hm
      exact ⟨ha, by simp [execute, cbEvents, hm]⟩
  | Refresh h c =>
      simp [cmdMentions] at hm
      exact ⟨ha, by simp [execute, cbEvents, hm]⟩
  | SetProtocolVersion v c =>
      simp [cmdMentions] at hm
      refine ⟨?_, by simp [execute, cbEvents, hm]⟩
      simp only [execute]
      by_cases hv : v ≠ 1 ∧ v ≠ 2
      · simpa [set_protocol_version, hv] using ha
      · simpa [set_protocol_version, hv] using ha
  | Close h c =>
      simp [cmdMentions] at hm
      cases hres : env.service.closeRes h with
      | error e =>
          refine ⟨by simpa [execute, close, hres, Except.bind] using ha, ?_⟩
          simp [execute, close, hres, cbEvents, hm, Except.bind]
      | ok cmd_id =>
          cases hb : env.borrowOk with
          | false =>
              refine ⟨by simpa [execute, close, hres, hb, Except.bind] using ha, ?_⟩
              simp [execute, close, hres, hb, cbEvents, hm, Except.bind]
          | true =>
              refine ⟨?_, by simp [execute, close, hres, hb, cbEvents, Except.bind]⟩
              simp only [execute, close, hres, hb, Except.bind]
              intro p hp
              rcases List.mem_cons.mp hp with h0 | h0
              · rw [h0]; exact hm
              · exact ha p (mem_mapErase h0).1
  | CloseAck h r =>
      cases hb : env.borrowOk with
      | false =>
          exact ⟨by simpa [execute, hb] using ha,
                 by simp [execute, hb, cbEvents]⟩
      | true =>
          cases hg : mapGet h st.close_callbacks with
          | none =>
              exact ⟨by simpa [execute, hb, hg] using ha,
                     by simp [execute, hb, hg, cbEvents]⟩
          | some c2 =>
              have hc2 : c2 ≠ cb := ha _ (mapGet_mem hg)
              refine ⟨?_, by simp [execute, hb, hg, cbEvents, hc2]⟩
              simp only [execute, hb, hg]
              intro p hp
              exact ha p (mem_mapErase hp).1

lemma step_onlyAt (cb : CbId) (id : CommandHandle) (env : Env)
    (st : ExecState) (cmd : PoolCommand)
    (hm : cmdMentions cb cmd = false) (ht : touchesId env cmd id = false)
    (hinv : cbOnlyAt id cb st.close_callbacks) :
    cbOnlyAt id cb (execute env st cmd).1.close_callbacks ∧
    cbEvents cb (execute env st cmd).2 = [] := by
  cases cmd with
  | Create name config c =>
      simp [cmdMentions] at hm
      exact ⟨hinv, by simp [execute, cbEvents, hm]⟩
  | Delete name c =>
      simp [cmdMentions] at hm
      exact ⟨hinv, by simp [execute, cbEvents, hm]⟩
  | Open name config c =>
      simp [cmdMentions] at hm
      exact ⟨hinv, by simp [execute, cbEvents, hm]⟩
  | List c =>
      simp [cmdMentions] at hm
      exact ⟨hinv, by simp [execute, cbEvents, hm]⟩
  | Refresh h c =>
      simp [cmdMentions] at hm
      exact ⟨hinv, by simp [execute, cbEvents, hm]⟩
  | SetProtocolVersion v c =>
      simp [cmdMentions] at hm
      refine ⟨?_, by simp [execute, cbEvents, hm]⟩
      simp only [execute]
      by_cases hv : v ≠ 1 ∧ v ≠ 2
      · simpa [set_protocol_version, hv] using hinv
      · simpa [set_protocol_version, hv] using hinv
  | Close h c =>
      simp [cmdMentions] at hm
      cases hres : env.service.closeRes h with
      | error e =>
          refine ⟨by simpa [execute, close, hres, Except.bind] using hinv, ?_⟩
          simp [execute, close, hres, cbEvents, hm, Except.bind]
      | ok cmd_id =>
          cases hb : env.borrowOk with
          | false =>
              refine ⟨by simpa [execute, close, hres, hb, Except.bind] using hinv, ?_⟩
              simp [execute, close, hres, hb, cbEvents, hm, Except.bind]
          | true =>
              have hid : cmd_id ≠ id := by
                simp [touchesId, hb, hres] at ht
                exact ht
              refine ⟨?_, by simp [execute, close, hres, hb, cbEvents, Except.bind]⟩
              simp only [execute, close, hres, hb, Except.bind]
              constructor
              · show mapGet id (mapInsert cmd_id c st.close_callbacks)
                    = some cb
                rw [mapInsert]
                show (if cmd_id = id then some c
                      else mapGet id (mapErase cmd_id st.close_callbacks))
                    = some cb
                rw [if_neg hid,
                    mapGet_mapErase_ne (Ne.symm hid) st.close_callbacks]
                exact hinv.1
              · intro p hp hpcb
                rcases List.mem_cons.mp hp with h0 | h0
                · exfalso
                  apply hm
                  rw [h0] at hpcb
                  exact hpcb
                · exact hinv.2 p (mem_mapErase h0).1 hpcb
  | CloseAck h r =>
      cases hb : env.borrowOk with
      | false =>
          exact ⟨by simpa [execute, hb] using hinv,
                 by simp [execute, hb, cbEvents]⟩
      | true =>
          have hid : h ≠ id := by
            simp [touchesId, hb] at ht
            exact ht
          cases hg : mapGet h st.close_callbacks with
          | none =>
              exact ⟨by simpa [execute, hb, hg] using hinv,
                     by simp [execute, hb, hg, cbEvents]⟩
          | some c2 =>
              have hc2 : c2 ≠ cb := by
                intro hEq
                exact hid (hinv.2 _ (mapGet_mem hg) hEq)
              refine ⟨?_, by simp [execute, hb, hg, cbEvents, hc2]⟩
              simp only [execute, hb, hg]
              constructor
              · show mapGet id (mapErase h st.close_callbacks) = some cb
                rw [mapGet_mapErase_ne (Ne.symm hid) st.close_callbacks]
                exact hinv.1
              · intro p hp hpcb
                exact hinv.2 p (mem_mapErase hp).1 hpcb

lemma run_absent (cb : CbId) :
    ∀ (l : List (Env × PoolCommand)) (st : ExecState),
      (∀ p ∈ l, cmdMentions cb p.2 = false) →
      cbAbsent cb st.close_callbacks →
      cbAbsent cb (run st l).1.close_callbacks ∧
      cbEvents cb (run st l).2 = [] := by
  intro l
  induction l with
  | nil => intro st _ ha; exact ⟨ha, rfl⟩
  | cons p rest ih =>
      intro st hl ha
      have hstep := step_absent cb p.1 st p.2 (hl p (List.mem_cons_self p rest)) ha
      have hrest := ih (execute p.1 st p.2).1
        (fun q hq => hl q (List.mem_cons_of_mem p hq)) hstep.1
      refine ⟨hrest.1, ?_⟩
      show cbEvents cb ((execute p.1 st p.2).2 ++
        (run (execute p.1 st p.2).1 rest).2) = []
      rw [cbEvents, List.filter_append]
      rw [cbEvents] at hstep hrest
      rw [hstep.2, hrest.2]
      rfl

lemma run_onlyAt (cb : CbId) (id : CommandHandle) :
    ∀ (l : List (Env × PoolCommand)) (st : ExecState),
      (∀ p ∈ l, cmdMentions cb p.2 = false ∧ touchesId p.1 p.2 id = false) →
      cbOnlyAt id cb st.close_callbacks →
      cbOnlyAt id cb (run st l).1.close_callbacks ∧
      cbEvents cb (run st l).2 = [] := by
  intro l
  induction l with
  | nil => intro st _ hinv; exact ⟨hinv, rfl⟩
  | cons p rest ih =>
      intro st hl hinv
      have hp := hl p (List.mem_cons_self p rest)
      have hstep := step_onlyAt cb id p.1 st p.2 hp.1 hp.2 hinv
      have hrest := ih (execute p.1 st p.2).1
        (fun q hq => hl q (List.mem_cons_of_mem p hq)) hstep.1
      refine ⟨hrest.1, ?_⟩
      show cbEvents cb ((execute p.1 st p.2).2 ++
        (run (execute p.1 st p.2).1 rest).2) = []
      rw [cbEvents, List.filter_append]
      rw [cbEvents] at hstep hrest
      rw [hstep.2, hrest.2]
      rfl

lemma run_append (l1 : List (Env × PoolCommand)) :
    ∀ (l2 : List (Env × PoolCommand)) (st : ExecState),
      run st (l1 ++ l2) =
        ((run (run st l1).1 l2).1,
         (run st l1).2 ++ (run (run st l1).1 l2).2) := by
  induction l1 with
  | nil => intro l2 st; simp [run]
  | cons p rest ih =>
      intro l2 st
      simp only [List.cons_append, run, List.append_eq]
      rw [ih l2 (execute p.1 st p.2).1]
      simp [List.append_assoc]

lemma close_establishes (env : Env) (st : ExecState) (h : PoolHandle)
    (cb : CbId) (id : CommandHandle)
    (hres : env.service.closeRes h = Except.ok id)
    (hb : env.borrowOk = true) (ha : cbAbsent cb st.close_callbacks) :
    (execute env st (PoolCommand.Close h cb)).2 = [] ∧
    cbOnlyAt id cb
      (execute env st (PoolCommand.Close h cb)).1.close_callbacks := by
  refine ⟨by simp [execute, close, hres, hb, Except.bind], ?_⟩
  simp only [execute, close, hres, hb, Except.bind]
  constructor
  · exact mapGet_mapInsert_self id cb st.close_callbacks
  · intro p hp hpcb
    rcases List.mem_cons.mp hp with h0 | h0
    · rw [h0]
    · exact absurd hpcb (ha p (mem_mapErase h0).1)

lemma ack_fires (env : Env) (st : ExecState) (id : CommandHandle)
    (cb : CbId) (r : IndyResult Unit) (hb : env.borrowOk = true)
    (hinv : cbOnlyAt id cb st.close_callbacks) :
    (execute env st (PoolCommand.CloseAck id r)).2
      = [(cb, CbResult.unit r)] ∧
    cbAbsent cb
      (execute env st (PoolCommand.CloseAck id r)).1.close_callbacks := by
  refine ⟨by simp [execute, hb, hinv.1], ?_⟩
  simp only [execute, hb, hinv.1]
  intro p hp hpcb
  exact (mem_mapErase hp).2 (hinv.2 p (mem_mapErase hp).1 hpcb)

lemma cbEvents_append (cb : CbId) (a b : List Event) :
    cbEvents cb (a ++ b) = cbEvents cb a ++ cbEvents cb b := by
  simp [cbEvents, List.filter_append]

lemma bind_ok_unit (r : IndyResult Unit) :
    r.bind (fun _ => Except.ok ()) = r := by
  cases r <;> rfl

/-- Whether a command variant reads or writes the pending-callback
table (`Close` and `CloseAck` only). -/
def touchesTable : PoolCommand → Bool
  | PoolCommand.Close _ _ => true
  | PoolCommand.CloseAck _ _ => true
  | _ => false

/-- Concrete service oracle for witnesses: every call succeeds; `close`
yields correlation id 42; `open` yields handle 7; the catalog is empty. -/
def okService : PoolService where
  createRes := fun _ _ => Except.ok ()
  deleteRes := fun _ => Except.ok ()
  openRes := fun _ _ => Except.ok 7
  listRes := Except.ok []
  closeRes := fun _ => Except.ok 42
  refreshRes := fun _ => Except.ok ()

/-- Concrete service error for witnesses. -/
def serviceErr : IndyError :=
  { kind := IndyErrorKind.Service 0, message := "service failure" }

/-- Concrete service oracle for witnesses: every call fails. -/
def errService : PoolService where
  createRes := fun _ _ => Except.error serviceErr
  deleteRes := fun _ => Except.error serviceErr
  openRes := fun _ _ => Except.error serviceErr
  listRes := Except.error serviceErr
  closeRes := fun _ => Except.error serviceErr
  refreshRes := fun _ => Except.error serviceErr

/-- All service calls succeed and the table borrow succeeds. -/
def okEnv : Env := { service := okService, borrowOk := true }

/-- All service calls succeed but the table borrow fails. -/
def lockedEnv : Env := { service := okService, borrowOk := false }

/-- All service calls fail; the table borrow succeeds. -/
def errEnv : Env := { service := errService, borrowOk := true }

/-- Initial state for witnesses: empty table, protocol version 2. -/
def initSt : ExecState := { close_callbacks := [], protocol_version := 2 }

/-- C2: a `Close(handle, cb)` command whose service call succeeds with
correlation id `id` (and whose table borrow succeeds) inserts `id ↦ cb`
into the pending-callback table and performs no callback invocation; a
`Close` whose service call fails invokes `cb` once with exactly that
error and leaves the table (indeed the whole state) unchanged. -/
theorem close_registers_or_reports
    (env : Env) (st : ExecState) (h : PoolHandle) (cb : CbId) :
    (∀ id : CommandHandle, env.service.closeRes h = Except.ok id →
        env.borrowOk = true →
        execute env st (PoolCommand.Close h cb)
          = ({ st with
                close_callbacks := mapInsert id cb st.close_callbacks },
             []))
    ∧ (∀ e : IndyError, env.service.closeRes h = Except.error e →
        execute env st (PoolCommand.Close h cb)
          = (st, [(cb, CbResult.unit (Except.error e))])) := by
  constructor
  · intro id hres hb
    simp [execute, close, hres, hb, Except.bind]
  · intro e hres
    simp [execute, close, hres, Except.bind]

/-- Witness for C2 at concrete inputs: a succeeding close registers
`42 ↦ 1` and fires nothing; a failing close fires callback 1 with the
service error and changes nothing. -/
theorem close_registers_or_reports_witness :
    execute okEnv initSt (PoolCommand.Close 5 1)
      = ({ initSt with close_callbacks := mapInsert 42 1 [] }, [])
    ∧ execute errEnv initSt (PoolCommand.Close 5 1)
      = (initSt, [(1, CbResult.unit (Except.error serviceErr))]) :=
  ⟨(close_registers_or_reports okEnv initSt 5 1).1 42 rfl rfl,
   (close_registers_or_reports errEnv initSt 5 1).2 serviceErr rfl⟩

/-- C3: a `CloseAck(id, result)` command (whose table borrow succeeds)
removes `id` from the pending-callback table; if an entry was stored it
fires that stored callback exactly once with exactly `result`
(`map_err(IndyError::from)` is the identity on the already-typed
result); if no entry was stored it fires no callback and returns
normally with the state unchanged. -/
theorem closeAck_resolves_or_drops
    (env : Env) (st : ExecState) (id : CommandHandle)
    (r : IndyResult Unit) (hb : env.borrowOk = true) :
    (∀ cb : CbId, mapGet id st.close_callbacks = some cb →
        execute env st (PoolCommand.CloseAck id r)
          = ({ st with
                close_callbacks := mapErase id st.close_callbacks },
             [(cb, CbResult.unit r)]))
    ∧ (mapGet id st.close_callbacks = none →
        execute env st (PoolCommand.CloseAck id r) = (st, [])) := by
  constructor
  · intro cb hget
    simp [execute, hb, hget]
  · intro hget
    simp [execute, hb, hget]

/-- Witness for C3 at concrete inputs: an ack for registered id 42
fires the stored callback 1 with the carried result and empties the
table; an ack for unregistered id 43 fires nothing. -/
theorem closeAck_resolves_or_drops_witness :
    execute okEnv { initSt with close_callbacks := [(42, 1)] }
        (PoolCommand.CloseAck 42 (Except.ok ()))
      = ({ initSt with close_callbacks := mapErase 42 [(42, 1)] },
         [(1, CbResult.unit (Except.ok ()))])
    ∧ execute okEnv { initSt with close_callbacks := [(42, 1)] }
        (PoolCommand.CloseAck 43 (Except.error serviceErr))
      = ({ initSt with close_callbacks := [(42, 1)] }, []) :=
  ⟨(closeAck_resolves_or_drops okEnv
      { initSt with close_callbacks := [(42, 1)] } 42
      (Except.ok ()) rfl).1 1 rfl,
   (closeAck_resolves_or_drops okEnv
      { initSt with close_callbacks := [(42, 1)] } 43
      (Except.error serviceErr) rfl).2 rfl⟩

/-- C4: `SetProtocolVersion(v, cb)` with `v = 1` or `v = 2` updates the
process-wide protocol version to `v` and fires `cb` once with success;
any other `v` fires `cb` once with a `PoolIncompatibleProtocolVersion`
error and leaves the state (in particular the protocol version)
entirely unchanged. -/
theorem set_protocol_version_validates
    (env : Env) (st : ExecState) (v : Nat) (cb : CbId) :
    ((v = 1 ∨ v = 2) →
        execute env st (PoolCommand.SetProtocolVersion v cb)
          = ({ st with protocol_version := v },
             [(cb, CbResult.unit (Except.ok ()))]))
    ∧ (v ≠ 1 → v ≠ 2 →
        execute env st (PoolCommand.SetProtocolVersion v cb)
          = (st,
             [(cb, CbResult.unit (Except.error
                 { kind := IndyErrorKind.PoolIncompatibleProtocolVersion,
                   message :=
                     "Unsupported Protocol version: " ++ toString v }))])) := by
  constructor
  · intro hv
    rcases hv with hv | hv <;> subst hv <;>
      simp [execute, set_protocol_version]
  · intro h1 h2
    simp [execute, set_protocol_version, h1, h2]

/-- Witness for C4 at concrete inputs: version 2 accepted and recorded;
version 0 rejected with the incompatible-version error and the state
kept. -/
theorem set_protocol_version_validates_witness :
    execute okEnv { initSt with protocol_version := 1 }
        (PoolCommand.SetProtocolVersion 2 1)
      = ({ initSt with protocol_version := 2 },
         [(1, CbResult.unit (Except.ok ()))])
    ∧ execute okEnv { initSt with protocol_version := 1 }
        (PoolCommand.SetProtocolVersion 0 1)
      = ({ initSt with protocol_version := 1 },
         [(1, CbResult.unit (Except.error
             { kind := IndyErrorKind.PoolIncompatibleProtocolVersion,
               message := "Unsupported Protocol version: 0" }))]) :=
  ⟨(set_protocol_version_validates okEnv
      { initSt with protocol_version := 1 } 2 1).1 (Or.inr rfl),
   (set_protocol_version_validates okEnv
      { initSt with protocol_version := 1 } 0 1).2
      (by decide) (by decide)⟩

/-- C5: when the table borrow fails, a `Close` whose service call
succeeded fires its callback once with the borrow error and leaves the
state unchanged (nothing is inserted); a `CloseAck` fires no callback
at all and leaves the state unchanged (the acknowledgement is dropped).
Both arms return normally. -/
theorem lock_failure_fails_closed
    (env : Env) (st : ExecState) (h : PoolHandle) (cb : CbId)
    (id ackId : CommandHandle) (r : IndyResult Unit)
    (hb : env.borrowOk = false)
    (hres : env.service.closeRes h = Except.ok id) :
    execute env st (PoolCommand.Close h cb)
      = (st, [(cb, CbResult.unit (Except.error borrowMutError))])
    ∧ execute env st (PoolCommand.CloseAck ackId r) = (st, []) := by
  constructor
  · simp [execute, close, hres, hb, Except.bind]
  · simp [execute, hb]

/-- Witness for C5 at concrete inputs: under a failed borrow, a close
whose service call yielded id 42 reports the borrow error to callback
1; an ack for id 42 (which is stored) is dropped without firing. -/
theorem lock_failure_fails_closed_witness :
    execute lockedEnv { initSt with close_callbacks := [(42, 3)] }
        (PoolCommand.Close 5 1)
      = ({ initSt with close_callbacks := [(42, 3)] },
         [(1, CbResult.unit (Except.error borrowMutError))])
    ∧ execute lockedEnv { initSt with close_callbacks := [(42, 3)] }
        (PoolCommand.CloseAck 42 (Except.ok ()))
      = ({ initSt with close_callbacks := [(42, 3)] }, []) :=
  lock_failure_fails_closed lockedEnv
    { initSt with close_callbacks := [(42, 3)] } 5 1 42 42
    (Except.ok ()) rfl rfl

/-- C6: `List(cb)` obtains the listing from the service and serializes
it; a service failure is passed to `cb` as that service error; a
serialization failure after a successful service call is passed to `cb`
as an `InvalidState` (internal-state) error — a kind distinct from
every service error kind; a successful serialization is passed to `cb`
as success. In every case the state is unchanged and execution returns
normally. -/
theorem list_translates_serialization_failure
    (env : Env) (st : ExecState) (cb : CbId) :
    (∀ e : IndyError, env.service.listRes = Except.error e →
        execute env st (PoolCommand.List cb)
          = (st, [(cb, CbResult.str (Except.error e))]))
    ∧ (∀ pools : List PoolInfo, env.service.listRes = Except.ok pools →
        serde_json_to_string pools = none →
        execute env st (PoolCommand.List cb)
          = (st, [(cb, CbResult.str (Except.error
              { kind := IndyErrorKind.InvalidState,
                message := "Cannot serialize pools list" }))]))
    ∧ (∀ pools : List PoolInfo, ∀ s : String,
        env.service.listRes = Except.ok pools →
        serde_json_to_string pools = some s →
        execute env st (PoolCommand.List cb)
          = (st, [(cb, CbResult.str (Except.ok s))]))
    ∧ (∀ code : Nat,
        IndyErrorKind.InvalidState ≠ IndyErrorKind.Service code) := by
  refine ⟨?_, ?_, ?_, ?_⟩
  · intro e hres
    simp [execute, list, hres, Except.bind]
  · intro pools hres hser
    simp [execute, list, hres, hser, Except.bind]
  · intro pools s hres hser
    simp [execute, list, hres, hser, Except.bind]
  · intro code hEq
    exact IndyErrorKind.noConfusion hEq

/-- Witness for C6 at concrete inputs: a failing service list call
reports the service error; a catalog with one unserializable entry
reports the `InvalidState` error; a serializable catalog reports the
serialized text; `InvalidState` differs from service kind 0. -/
theorem list_translates_serialization_failure_witness :
    execute errEnv initSt (PoolCommand.List 1)
      = (initSt, [(1, CbResult.str (Except.error serviceErr))])
    ∧ execute
        { service := { okService with
            listRes := Except.ok [{ json := none }] },
          borrowOk := true } initSt (PoolCommand.List 1)
      = (initSt, [(1, CbResult.str (Except.error
          { kind := IndyErrorKind.InvalidState,
            message := "Cannot serialize pools list" }))])
    ∧ execute
        { service := { okService with
            listRes := Except.ok [{ json := some "1" }] },
          borrowOk := true } initSt (PoolCommand.List 1)
      = (initSt, [(1, CbResult.str (Except.ok "[1]"))])
    ∧ IndyErrorKind.InvalidState ≠ IndyErrorKind.Service 0 :=
  ⟨(list_translates_serialization_failure errEnv initSt 1).1
      serviceErr rfl,
   (list_translates_serialization_failure
      { service := { okService with
          listRes := Except.ok [{ json := none }] },
        borrowOk := true } initSt 1).2.1 [{ json := none }] rfl rfl,
   (list_translates_serialization_failure
      { service := { okService with
          listRes := Except.ok [{ json := some "1" }] },
        borrowOk := true } initSt 1).2.2.1 [{ json := some "1" }]
      "[1]" rfl rfl,
   (list_translates_serialization_failure okEnv initSt 1).2.2.2 0⟩

/-- C7: when the service list call succeeds with the empty collection,
`List(cb)` fires `cb` once with success carrying the serialized empty
listing, the text `"[]"`. -/
theorem list_empty_catalog_ok
    (env : Env) (st : ExecState) (cb : CbId)
    (hres : env.service.listRes = Except.ok []) :
    execute env st (PoolCommand.List cb)
      = (st, [(cb, CbResult.str (Except.ok "[]"))]) := by
  simp only [execute, list, hres, Except.bind]
  rfl

/-- Witness for C7 at a concrete input: the all-succeeding service has
an empty catalog and listing it yields the text `"[]"`. -/
theorem list_empty_catalog_ok_witness :
    execute okEnv initSt (PoolCommand.List 1)
      = (initSt, [(1, CbResult.str (Except.ok "[]"))]) :=
  list_empty_catalog_ok okEnv initSt 1 rfl

/-- C8: `Create(name, config, cb)` and `Delete(name, cb)` delegate to
the service and fire their callback exactly once with exactly the
service result — success as success, an error as the same error — and
leave the state unchanged. -/
theorem create_delete_passthrough
    (env : Env) (st : ExecState) (name name2 : String)
    (config : Option PoolConfig) (cb cb2 : CbId) :
    execute env st (PoolCommand.Create name config cb)
      = (st, [(cb, CbResult.unit (env.service.createRes name config))])
    ∧ execute env st (PoolCommand.Delete name2 cb2)
      = (st, [(cb2, CbResult.unit (env.service.deleteRes name2))]) := by
  constructor
  · simp [execute, create, bind_ok_unit]
  · simp [execute, delete, bind_ok_unit]

/-- C9: executing any command other than `Close` and `CloseAck` leaves
the pending-callback table exactly unchanged, whatever the service
results are. -/
theorem non_close_commands_preserve_table
    (env : Env) (st : ExecState) (cmd : PoolCommand)
    (hc : touchesTable cmd = false) :
    (execute env st cmd).1.close_callbacks = st.close_callbacks := by
  cases cmd with
  | Create name config c => rfl
  | Delete name c => rfl
  | Open name config c => rfl
  | List c => rfl
  | Refresh h c => rfl
  | SetProtocolVersion v c =>
      simp only [execute]
      by_cases hv : v ≠ 1 ∧ v ≠ 2 <;> simp [set_protocol_version, hv]
  | Close h c => simp [touchesTable] at hc
  | CloseAck h r => simp [touchesTable] at hc

/-- Witness for C9 at a concrete input: a failing
`SetProtocolVersion(7)` against a non-empty table leaves the table
exactly as it was. -/
theorem non_close_commands_preserve_table_witness :
    (execute errEnv { initSt with close_callbacks := [(42, 1)] }
        (PoolCommand.SetProtocolVersion 7 3)).1.close_callbacks
      = [(42, 1)] :=
  non_close_commands_preserve_table errEnv
    { initSt with close_callbacks := [(42, 1)] }
    (PoolCommand.SetProtocolVersion 7 3) rfl

/-- C10: a successful `Close` whose correlation id is already present
in the table silently overwrites the entry: the close step fires no
callback (the old callback is discarded, not invoked), the table now
maps the id to the new callback, and a subsequent `CloseAck` for that
id fires only the new callback; across both steps the old callback is
never invoked. -/
theorem close_overwrites_duplicate_id
    (cEnv aEnv : Env) (st : ExecState) (h : PoolHandle)
    (id : CommandHandle) (oldCb newCb : CbId) (r : IndyResult Unit)
    (hres : cEnv.service.closeRes h = Except.ok id)
    (hb1 : cEnv.borrowOk = true) (hb2 : aEnv.borrowOk = true)
    (hold : mapGet id st.close_callbacks = some oldCb)
    (hne : oldCb ≠ newCb) :
    (execute cEnv st (PoolCommand.Close h newCb)).2 = []
    ∧ mapGet id
        (execute cEnv st
          (PoolCommand.Close h newCb)).1.close_callbacks = some newCb
    ∧ (execute aEnv (execute cEnv st (PoolCommand.Close h newCb)).1
          (PoolCommand.CloseAck id r)).2 = [(newCb, CbResult.unit r)]
    ∧ cbEvents oldCb
        ((execute cEnv st (PoolCommand.Close h newCb)).2 ++
         (execute aEnv (execute cEnv st (PoolCommand.Close h newCb)).1
           (PoolCommand.CloseAck id r)).2) = [] := by
  have h1 : execute cEnv st (PoolCommand.Close h newCb)
      = ({ st with
            close_callbacks := mapInsert id newCb st.close_callbacks },
         []) := by
    simp [execute, close, hres, hb1, Except.bind]
  have hget : mapGet id (mapInsert id newCb st.close_callbacks)
      = some newCb := mapGet_mapInsert_self id newCb st.close_callbacks
  have h2 : execute aEnv
      ({ st with
          close_callbacks := mapInsert id newCb st.close_callbacks })
      (PoolCommand.CloseAck id r)
      = ({ st with close_callbacks :=
            mapErase id (mapInsert id newCb st.close_callbacks) },
         [(newCb, CbResult.unit r)]) := by
    simp [execute, hb2, hget]
  refine ⟨by rw [h1], by rw [h1]; exact hget, by rw [h1, h2], ?_⟩
  rw [h1, h2]
  simp [cbEvents, Ne.symm hne]

/-- Witness for C10 at concrete inputs: id 42 is already bound to
callback 1; a close registering callback 3 overwrites it silently and
the following ack fires only callback 3, callback 1 never. -/
theorem close_overwrites_duplicate_id_witness :
    (execute okEnv { initSt with close_callbacks := [(42, 1)] }
        (PoolCommand.Close 5 3)).2 = []
    ∧ mapGet 42
        (execute okEnv { initSt with close_callbacks := [(42, 1)] }
          (PoolCommand.Close 5 3)).1.close_callbacks = some 3
    ∧ (execute okEnv
          (execute okEnv { initSt with close_callbacks := [(42, 1)] }
            (PoolCommand.Close 5 3)).1
          (PoolCommand.CloseAck 42 (Except.ok ()))).2
        = [(3, CbResult.unit (Except.ok ()))]
    ∧ cbEvents 1
        ((execute okEnv { initSt with close_callbacks := [(42, 1)] }
            (PoolCommand.Close 5 3)).2 ++
         (execute okEnv
            (execute okEnv { initSt with close_callbacks := [(42, 1)] }
              (PoolCommand.Close 5 3)).1
            (PoolCommand.CloseAck 42 (Except.ok ()))).2) = [] :=
  close_overwrites_duplicate_id okEnv okEnv
    { initSt with close_callbacks := [(42, 1)] } 5 42 1 3
    (Except.ok ()) rfl rfl rfl rfl (by decide)

/-- C1: in any command sequence `pre ++ Close(h, cb) :: mid ++
CloseAck(id, r) :: post` where the close's service call succeeds with
correlation id `id` (and its registration borrow succeeds), where `cb`
is fresh (not stored initially and not carried by any other command),
where no step of `mid` writes or removes the pending entry at `id`, and
where the ack's borrow succeeds, the callback `cb` is invoked exactly
once over the whole run, with exactly the result `r` carried by that
`CloseAck` — and it is invoked zero times in the strict prefix ending
just before the `CloseAck`, however many further `CloseAck(id, _)`
commands `post` contains. -/
theorem close_callback_fires_exactly_once_after_matching_ack
    (st0 : ExecState) (pre mid post : List (Env × PoolCommand))
    (cEnv aEnv : Env) (h : PoolHandle) (cb : CbId)
    (id : CommandHandle) (r : IndyResult Unit)
    (ha0 : cbAbsent cb st0.close_callbacks)
    (hpre : ∀ p ∈ pre, cmdMentions cb p.2 = false)
    (hmid : ∀ p ∈ mid,
        cmdMentions cb p.2 = false ∧ touchesId p.1 p.2 id = false)
    (hpost : ∀ p ∈ post, cmdMentions cb p.2 = false)
    (hres : cEnv.service.closeRes h = Except.ok id)
    (hb1 : cEnv.borrowOk = true) (hb2 : aEnv.borrowOk = true) :
    cbEvents cb (run st0 (pre ++ (cEnv, PoolCommand.Close h cb) ::
        (mid ++ (aEnv, PoolCommand.CloseAck id r) :: post))).2
      = [(cb, CbResult.unit r)]
    ∧ cbEvents cb
        (run st0 (pre ++ (cEnv, PoolCommand.Close h cb) :: mid)).2
      = [] := by
  obtain ⟨ha1, he1⟩ := run_absent cb pre st0 hpre ha0
  obtain ⟨hex, honly2⟩ :=
    close_establishes cEnv (run st0 pre).1 h cb id hres hb1 ha1
  obtain ⟨honly3, he3⟩ := run_onlyAt cb id mid
    (execute cEnv (run st0 pre).1 (PoolCommand.Close h cb)).1 hmid honly2
  obtain ⟨hey, hab4⟩ := ack_fires aEnv
    (run (execute cEnv (run st0 pre).1 (PoolCommand.Close h cb)).1
      mid).1 id cb r hb2 honly3
  obtain ⟨_, heC⟩ := run_absent cb post
    (execute aEnv
      (run (execute cEnv (run st0 pre).1 (PoolCommand.Close h cb)).1
        mid).1 (PoolCommand.CloseAck id r)).1 hpost hab4
  constructor
  · rw [run_append pre ((cEnv, PoolCommand.Close h cb) ::
        (mid ++ (aEnv, PoolCommand.CloseAck id r) :: post)) st0]
    simp only [run]
    rw [run_append mid ((aEnv, PoolCommand.CloseAck id r) :: post)]
    simp only [run]
    simp only [cbEvents_append, he1, hex, he3, hey, heC]
    simp [cbEvents]
  · rw [run_append pre ((cEnv, PoolCommand.Close h cb) :: mid) st0]
    simp only [run]
    simp only [cbEvents_append, he1, hex, he3]
    simp [cbEvents]

/-- Witness for C1 at a concrete five-command trace: a create, the
close (registering callback 1 under id 42), a delete, the matching ack
with success, and a duplicate ack for the same id; callback 1 fires
exactly once, with the first ack's success result, and not in the
prefix before the ack. -/
theorem close_callback_fires_exactly_once_after_matching_ack_witness :
    cbEvents 1 (run initSt
        ([(okEnv, PoolCommand.Create "p" none 2)] ++
          (okEnv, PoolCommand.Close 5 1) ::
          ([(okEnv, PoolCommand.Delete "p" 3)] ++
            (okEnv, PoolCommand.CloseAck 42 (Except.ok ())) ::
            [(okEnv, PoolCommand.CloseAck 42
                (Except.error serviceErr))]))).2
      = [(1, CbResult.unit (Except.ok ()))]
    ∧ cbEvents 1 (run initSt
        ([(okEnv, PoolCommand.Create "p" none 2)] ++
          (okEnv, PoolCommand.Close 5 1) ::
          [(okEnv, PoolCommand.Delete "p" 3)])).2
      = [] :=
  close_callback_fires_exactly_once_after_matching_ack initSt
    [(okEnv, PoolCommand.Create "p" none 2)]
    [(okEnv, PoolCommand.Delete "p" 3)]
    [(okEnv, PoolCommand.CloseAck 42 (Except.error serviceErr))]
    okEnv okEnv 5 1 42 (Except.ok ())
    (by intro p hp; simp [initSt] at hp)
    (by intro p hp
        rw [List.mem_singleton] at hp
        subst hp
        rfl)
    (by intro p hp
        rw [List.mem_singleton] at hp
        subst hp
        exact ⟨rfl, rfl⟩)
    (by intro p hp
        rw [List.mem_singleton] at hp
        subst hp
        rfl)
    rfl rfl rfl

end PoolCmd
